import Mathlib

/-!
Shallow embedding of the generic scheduler (`plugin/pkg/scheduler/generic_scheduler.go`):
the filter-then-score placement algorithm: `findNodesThatFit` (Filter Stage),
`PrioritizeNodes` / `EqualPriority` (Priority Stage), `selectHost` / `getBestHosts`
(Selector), `FitError.Error`, and the top-level `genericScheduler.Schedule`.

Go machine integers are modelled as `Int` (scores, weights) and `Nat` (the
non-negative draw of `rand.Int()`); Go maps are modelled as insertion-ordered
association lists, which fixes one of the iteration orders Go permits; fallible
Go calls returning `(T, error)` are modelled as `Except Err T`, except where the
Go function materialises zero values next to the error, which is kept as an
explicit triple.  Goroutine scheduling in `PrioritizeNodes` is made explicit by a
boolean parameter: whether the first-wave scoring tasks have completed before the
error-list check that the source performs ahead of `wg.Wait()`.
-/

namespace Sched

/-- A workload unit (`api.Pod`): identity plus the machine it is currently
assigned to (used only to build the placement map). -/
structure Pod where
  name : String
  nodeName : String
deriving DecidableEq, Repr

/-- A candidate machine (`api.Node`): only its identity is consulted by the
algorithm.  A Go `api.NodeList` is modelled as `List Node`. -/
structure Node where
  name : String
deriving DecidableEq, Repr

/-- One entry of a `schedulerapi.HostPriorityList`. -/
structure HostPriority where
  host : String
  score : Int
deriving DecidableEq, Repr

/-- The per-candidate failure map `FailedPredicateMap = map[string]sets.String`,
modelled as an insertion-ordered association list whose values are duplicate-free
lists (the `sets.String` reason sets). -/
abbrev FailedPredicateMap := List (String × List String)

/-- The error values the scheduler produces or propagates.  Distinct Go error
values (`ErrNoNodesAvailable`, `*FitError`, `fmt.Errorf` results,
`errors.NewAggregate`) become distinct constructors. -/
inductive Err where
  /-- an error from a lister collaborator, propagated verbatim -/
  | listErr (msg : String)
  /-- `ErrNoNodesAvailable` -/
  | noNodesAvailable
  /-- `*FitError` with the pod and the per-candidate failure map -/
  | fitError (podName : String) (failedPredicates : FailedPredicateMap)
  /-- the `fmt.Errorf("got InsufficientResourceError ... but also fit='true'")` invariant violation -/
  | insufficientButFit (resourceName : String)
  /-- a generic (non-insufficiency) predicate error, propagated verbatim -/
  | predicateError (msg : String)
  /-- an extender error, propagated verbatim from `extender.Filter` -/
  | extenderError (msg : String)
  /-- `errors.NewAggregate` over the priority functions' errors -/
  | aggregate (errs : List Err)
  /-- `fmt.Errorf("empty priorityList")` from `selectHost` -/
  | emptyPriorityList
  /-- a generic priority-function error -/
  | priorityError (msg : String)

/-- The `error` half of a `FitPredicate` result: either
`*predicates.InsufficientResourceError` (carrying the resource name) or any
other error. -/
inductive PredicateFailure where
  | insufficientResource (resourceName : String)
  | generic (e : Err)

/-- The `algorithm.FitPredicate` shape: `(pod, podsOnMachine, nodeName) → (fit bool, err)`. -/
abbrev FitPredicate := Pod → List Pod → String → Bool × Option PredicateFailure

/-- The `algorithm.PodLister` collaborator, reduced to the one observation the scheduler makes of
it: `List()`'s outcome. -/
abbrev PodLister := Except Err (List Pod)

/-- The `algorithm.NodeLister` collaborator, reduced to `List()`'s outcome.  `Schedule` always
supplies a non-nil lister (`FakeNodeLister(filteredNodes)`), so the nil-lister
case of the source is outside the modelled state space. -/
abbrev NodeLister := Except Err (List Node)

/-- The `algorithm.PriorityFunction` shape: invoked with the pod, the placement map, the
pod lister and the node lister, yielding a host-priority list or an error. -/
abbrev PriorityFunction :=
  Pod → (String → List Pod) → PodLister → NodeLister → Except Err (List HostPriority)

/-- The `algorithm.PriorityConfig` pair: a priority function paired with its weight. -/
structure PriorityConfig where
  function : PriorityFunction
  weight : Int

/-- The `algorithm.SchedulerExtender` capability: the two operations the core consumes.
`filter` returns the surviving candidates; `prioritize` returns a score list
together with the extender's weight. -/
structure SchedulerExtender where
  filter : Pod → List Node → Except Err (List Node)
  prioritize : Pod → List Node → Except Err (List HostPriority × Int)

/-- The `genericScheduler` struct: its registries and its pod lister.  The
`rand.Rand` source is modelled by passing each draw explicitly. -/
structure GenericScheduler where
  predicates : List (String × FitPredicate)
  prioritizers : List PriorityConfig
  extenders : List SchedulerExtender
  pods : PodLister

/-- Modelled from the spec: `predicates.MapPodsToMachines` is not among the
sources; per the spec it builds, once per attempt from the `PodLister`
collaborator, "the mapping from candidate name to the list of workload units
already assigned there", propagating a lister error verbatim. -/
def MapPodsToMachines (podLister : PodLister) : Except Err (String → List Pod) :=
  match podLister with
  | .error e => .error e
  | .ok pods => .ok (fun machine => pods.filter (fun p => p.nodeName == machine))

/-! ### Failure map operations -/

/-- Looking a node up in the failure map. -/
def fpmLookup : FailedPredicateMap → String → Option (List String)
  | [], _ => none
  | (k, s) :: rest, key => if k = key then some s else fpmLookup rest key

/-- The source's two-step recording: ensure `failedPredicateMap[node]` exists
(`= sets.String{}` when absent) and then `Insert` the reason into the set. -/
def fpmInsert : FailedPredicateMap → String → String → FailedPredicateMap
  | [], key, reason => [(key, [reason])]
  | (k, s) :: rest, key, reason =>
    if k = key then (k, if reason ∈ s then s else s ++ [reason]) :: rest
    else (k, s) :: fpmInsert rest key reason

/-! ### Filter Stage -/

/-- The inner predicate loop of `findNodesThatFit` for one node: runs the
registered predicates in order and either
* aborts the whole stage (`.error _`): a generic predicate error, or an
  `InsufficientResourceError` reported together with `fit == true`;
* rejects the node (`.ok (some reason)`): `reason` is the insufficient
  resource's name for an `InsufficientResourceError`, otherwise the predicate's
  name — and by the `break` in the source no later predicate runs;
* accepts the node (`.ok none`): every predicate reported `fit == true`. -/
def checkNode (pod : Pod) (pods : List Pod) (nodeName : String) :
    List (String × FitPredicate) → Except Err (Option String)
  | [] => .ok none
  | (name, p) :: rest =>
    match p pod pods nodeName with
    | (_, some (.generic e)) => .error e
    | (fit, some (.insufficientResource r)) =>
      if fit then .error (.insufficientButFit r) else .ok (some r)
    | (fit, none) =>
      if fit then checkNode pod pods nodeName rest else .ok (some name)

/-- The node loop of `findNodesThatFit`, with the two accumulators the source
mutates (`filtered` and `failedPredicateMap`); a systemic predicate error
discards both and returns empty outputs next to the error, as the source does. -/
def runPredicates (pod : Pod) (machineToPods : String → List Pod)
    (predicateFuncs : List (String × FitPredicate)) :
    List Node → List Node → FailedPredicateMap →
    List Node × FailedPredicateMap × Option Err
  | [], filtered, fpm => (filtered, fpm, none)
  | node :: rest, filtered, fpm =>
    match checkNode pod (machineToPods node.name) node.name predicateFuncs with
    | .error e => ([], [], some e)
    | .ok none => runPredicates pod machineToPods predicateFuncs rest (filtered ++ [node]) fpm
    | .ok (some reason) =>
      runPredicates pod machineToPods predicateFuncs rest filtered (fpmInsert fpm node.name reason)

/-- The extender loop of `findNodesThatFit`: in registration order, each
extender filters the previous survivors; a `break` as soon as the survivors
become empty; any error aborts. -/
def runExtenderFilters (pod : Pod) :
    List SchedulerExtender → List Node → Except Err (List Node)
  | [], filtered => .ok filtered
  | ext :: rest, filtered =>
    match ext.filter pod filtered with
    | .error e => .error e
    | .ok l => if l.length = 0 then .ok l else runExtenderFilters pod rest l

/-- The whole of `findNodesThatFit`: predicate phase followed, when there are survivors and
registered extenders, by the extender phase; error paths return empty outputs
next to the error. -/
def findNodesThatFit (pod : Pod) (machineToPods : String → List Pod)
    (predicateFuncs : List (String × FitPredicate)) (nodes : List Node)
    (extenders : List SchedulerExtender) :
    List Node × FailedPredicateMap × Option Err :=
  match runPredicates pod machineToPods predicateFuncs nodes [] [] with
  | (filtered, fpm, some e) => (filtered, fpm, some e)
  | (filtered, fpm, none) =>
    if filtered.length > 0 ∧ extenders.length ≠ 0 then
      match runExtenderFilters pod extenders filtered with
      | .error e => ([], [], some e)
      | .ok l => (l, fpm, none)
    else (filtered, fpm, none)

/-! ### Priority Stage -/

/-- The update `combinedScores[host] += delta`, on the association-list model of the Go
map (an absent key reads as zero and is appended). -/
def addCombined : List (String × Int) → String → Int → List (String × Int)
  | [], host, delta => [(host, delta)]
  | (h, s) :: rest, host, delta =>
    if h = host then (h, s + delta) :: rest else (h, s) :: addCombined rest host delta

/-- One scoring task's aggregation step: for each `(host, score)` pair of its
result, `combinedScores[host] += score * weight`. -/
def addScores (tbl : List (String × Int)) (weight : Int) :
    List HostPriority → List (String × Int)
  | [] => tbl
  | hp :: rest => addScores (addCombined tbl hp.host (hp.score * weight)) weight rest

/-- The first wave of `PrioritizeNodes`: one task per priority function whose
weight is not zero (weight-0 configs are `continue`d over), each recorded with
its weight and its function's outcome. -/
def priorityResults (pod : Pod) (machinesToPods : String → List Pod)
    (podLister : PodLister) (nodeLister : NodeLister)
    (priorityConfigs : List PriorityConfig) :
    List (Int × Except Err (List HostPriority)) :=
  (priorityConfigs.filter (fun c => !(c.weight == 0))).map
    (fun c => (c.weight, c.function pod machinesToPods podLister nodeLister))

/-- The errors the first-wave tasks append to the shared `errs` slice. -/
def priorityErrors (outs : List (Int × Except Err (List HostPriority))) : List Err :=
  outs.filterMap (fun o => match o.2 with | .error e => some e | .ok _ => none)

/-- Folding every non-erroring first-wave task's contribution into the
combined-score table (an erroring task contributes nothing). -/
def applyPriorityResults (tbl : List (String × Int)) :
    List (Int × Except Err (List HostPriority)) → List (String × Int)
  | [] => tbl
  | (_, .error _) :: rest => applyPriorityResults tbl rest
  | (w, .ok l) :: rest => applyPriorityResults (addScores tbl w l) rest

/-- The second wave: one task per extender; a prioritize error is swallowed and
that extender contributes nothing, otherwise its scores are folded in with the
weight it returned. -/
def applyExtenderPrioritize (pod : Pod) (nodes : List Node)
    (tbl : List (String × Int)) : List SchedulerExtender → List (String × Int)
  | [] => tbl
  | ext :: rest =>
    match ext.prioritize pod nodes with
    | .error _ => applyExtenderPrioritize pod nodes tbl rest
    | .ok (l, w) => applyExtenderPrioritize pod nodes (addScores tbl w l) rest

/-- Reading the combined-score table out as a `HostPriorityList` (the source
ranges over the Go map; the association list fixes insertion order as the one
iteration order). -/
def tableToList (tbl : List (String × Int)) : List HostPriority :=
  tbl.map (fun p => { host := p.1, score := p.2 })

/-- The `EqualPriority` prioritizer: scores every node of the lister 1; a lister error is
returned with an empty list. -/
def EqualPriority (_pod : Pod) (_machinesToPods : String → List Pod)
    (_podLister : PodLister) (nodeLister : NodeLister) : Except Err (List HostPriority) :=
  match nodeLister with
  | .error e => .error e
  | .ok nodes => .ok (nodes.map (fun n => { host := n.name, score := 1 }))

/-- The Priority Stage, `PrioritizeNodes`.  `tasksDoneBeforeCheck` makes the goroutine schedule
explicit: the source spawns the first-wave tasks and then tests
`len(errs) != 0` BEFORE `wg.Wait()`, so whether that test observes the tasks'
errors depends on the schedule — `true` models every first-wave task having
completed by the test, `false` the (single-threaded Go) schedule in which the
spawned tasks only run once the main goroutine blocks at the barrier. -/
def PrioritizeNodes (tasksDoneBeforeCheck : Bool) (pod : Pod)
    (machinesToPods : String → List Pod) (podLister : PodLister)
    (priorityConfigs : List PriorityConfig) (nodeLister : NodeLister)
    (extenders : List SchedulerExtender) : Except Err (List HostPriority) :=
  if priorityConfigs.length = 0 ∧ extenders.length = 0 then
    EqualPriority pod machinesToPods podLister nodeLister
  else
    let outs := priorityResults pod machinesToPods podLister nodeLister priorityConfigs
    let errs := priorityErrors outs
    if tasksDoneBeforeCheck ∧ errs.length ≠ 0 then
      .error (.aggregate errs)
    else
      let combined := applyPriorityResults [] outs
      if extenders.length ≠ 0 then
        match nodeLister with
        | .error e => .error e
        | .ok nodes => .ok (tableToList (applyExtenderPrioritize pod nodes combined extenders))
      else .ok (tableToList combined)

/-! ### Selector -/

/-- The sort order `sort.Sort(sort.Reverse(priorityList))` establishes.
`HostPriorityList.Less` is not among the sources; modelled from the spec:
the Selector "sorts the ranking by score descending". -/
def hpGE (a b : HostPriority) : Prop := b.score ≤ a.score

instance : DecidableRel hpGE := fun a b => inferInstanceAs (Decidable (b.score ≤ a.score))

instance : IsTotal HostPriority hpGE := ⟨fun a b => le_total b.score a.score⟩

instance : IsTrans HostPriority hpGE := ⟨fun _ _ _ h h' => le_trans h' h⟩

/-- The helper `getBestHosts`: the names in the maximal prefix of the (descending-sorted)
list whose score equals the first entry's score; empty input yields an empty
result (the comparison against `list[0]` sits inside the loop body). -/
def getBestHosts (list : List HostPriority) : List String :=
  match list with
  | [] => []
  | h0 :: _ => (list.takeWhile (fun e => e.score == h0.score)).map (fun e => e.host)

/-- The Selector, `genericScheduler.selectHost`: errors on an empty ranking; otherwise sorts
by score descending (`sort.Sort` guarantees a sorted permutation; insertion
sort realises one), collects the tied-best prefix and indexes it with
`random.Int() % len(hosts)` — the draw is the explicit `randomInt ≥ 0`. -/
def selectHost (randomInt : Nat) (priorityList : List HostPriority) : Except Err String :=
  if priorityList.length = 0 then .error .emptyPriorityList
  else
    let sorted := List.insertionSort hpGE priorityList
    let hosts := getBestHosts sorted
    .ok (hosts.getD (randomInt % hosts.length) "")

/-! ### FitError -/

/-- The `FitError` struct. -/
structure FitError where
  pod : Pod
  failedPredicates : FailedPredicateMap

/-- Modelled from the spec: `sets.String.PopAny` is not among the sources; per
the spec the string form makes an "arbitrary pick from one candidate's reason
set" while "full detail remains available in the structured failure map", so
the pick is modelled as reading one element and returning the set unchanged. -/
def popAny (s : List String) : Option String × List String :=
  (s.head?, s)

/-- The loop of `FitError.Error`: iterates over every entry (the source also
logs each); while `reason` is still empty it calls `PopAny` on the entry's set,
threading each (possibly updated) set back into the map. -/
def fitErrorLoop : FailedPredicateMap → String → String × FailedPredicateMap
  | [], reason => (reason, [])
  | (node, reasons) :: rest, reason =>
    let step :=
      if reason.length = 0 then
        let p := popAny reasons
        ((match p.1 with | some s => s | none => ""), p.2)
      else (reason, reasons)
    let next := fitErrorLoop rest step.1
    (next.1, (node, step.2) :: next.2)

/-- The method `FitError.Error`: the summary string, together with the failure map as the
call leaves it (the Go method reads the map the struct holds; the model returns
the post-call map explicitly to make the frame condition provable). -/
def FitErrorError (f : FitError) : String × FailedPredicateMap :=
  let r := fitErrorLoop f.failedPredicates ""
  ("Failed for reason " ++ r.1 ++ " and possibly others", r.2)

/-! ### Top-level orchestration -/

/-- The top-level `genericScheduler.Schedule`: list candidates, build the placement map, run
the Filter Stage, fail with a `FitError` on zero survivors, run the Priority
Stage over the survivors (the lister handed down is
`FakeNodeLister(filteredNodes)`, i.e. it yields exactly the survivors), and
select the winner. -/
def Schedule (tasksDoneBeforeCheck : Bool) (randomInt : Nat) (g : GenericScheduler)
    (pod : Pod) (nodeLister : NodeLister) : Except Err String :=
  match nodeLister with
  | .error e => .error e
  | .ok nodes =>
    if nodes.length = 0 then .error .noNodesAvailable
    else
      match MapPodsToMachines g.pods with
      | .error e => .error e
      | .ok machinesToPods =>
        match findNodesThatFit pod machinesToPods g.predicates nodes g.extenders with
        | (_, _, some e) => .error e
        | (filteredNodes, failedPredicateMap, none) =>
          if filteredNodes.length = 0 then
            .error (.fitError pod.name failedPredicateMap)
          else
            match PrioritizeNodes tasksDoneBeforeCheck pod machinesToPods g.pods
                g.prioritizers (.ok filteredNodes) g.extenders with
            | .error e => .error e
            | .ok priorityList => selectHost randomInt priorityList

/-- The candidate list the Priority Stage hands to every extender's
`Prioritize` call, projected out of `Schedule`'s composition: `none` when the
extender scoring wave is never reached (lister error, no candidates, systemic
filter error, zero survivors, the equal-priority special case, an early
aggregate-error return, or no extenders), otherwise `some` of the list the
wave fetches from the lister `Schedule` supplied. -/
def scheduleExtenderPrioritizeInput (tasksDoneBeforeCheck : Bool)
    (g : GenericScheduler) (pod : Pod) (nodeLister : NodeLister) : Option (List Node) :=
  match nodeLister with
  | .error _ => none
  | .ok nodes =>
    if nodes.length = 0 then none
    else
      match MapPodsToMachines g.pods with
      | .error _ => none
      | .ok machinesToPods =>
        match findNodesThatFit pod machinesToPods g.predicates nodes g.extenders with
        | (_, _, some _) => none
        | (filteredNodes, _, none) =>
          if filteredNodes.length = 0 then none
          else if g.prioritizers.length = 0 ∧ g.extenders.length = 0 then none
          else
            let outs := priorityResults pod machinesToPods g.pods (.ok filteredNodes)
              g.prioritizers
            if tasksDoneBeforeCheck ∧ (priorityErrors outs).length ≠ 0 then none
            else if g.extenders.length ≠ 0 then some filteredNodes
            else none

/-! ### Concrete fixtures (used by witnesses and counterexamples) -/

def podW : Pod := { name := "w", nodeName := "" }

def nodeA : Node := { name := "a" }

def nodeB : Node := { name := "b" }

def emptyPlacement : String → List Pod := fun _ => []

/-- A priority config registered with weight 0 (skipped by the first wave). -/
def zeroWeightConfig : PriorityConfig := { function := fun _ _ _ _ => .ok [], weight := 0 }

/-- A weight-1 priority function that always errors. -/
def failingConfig : PriorityConfig :=
  { function := fun _ _ _ _ => .error (.priorityError "boom"), weight := 1 }

def alwaysFalsePred : FitPredicate := fun _ _ _ => (false, none)

def alwaysTruePred : FitPredicate := fun _ _ _ => (true, none)

/-- A predicate that reports fit but also carries an error: were it ever
invoked after a rejection, its error would abort the stage. -/
def erroringPred : FitPredicate := fun _ _ _ => (true, some (.generic (.predicateError "late")))

/-- A predicate reporting a named-resource insufficiency of "cpu" everywhere. -/
def insufficientCpuPred : FitPredicate :=
  fun _ _ _ => (false, some (.insufficientResource "cpu"))

/-- A predicate that rejects exactly the node named "b". -/
def rejectBPred : FitPredicate := fun _ _ nodeName => (nodeName != "b", none)

/-- An extender whose filter keeps everything and whose prioritize scores every
node it is handed with 1 at weight 1 (so its input is observable). -/
def scoringExtender : SchedulerExtender :=
  { filter := fun _ nodes => .ok nodes
    prioritize := fun _ nodes => .ok (nodes.map (fun n => { host := n.name, score := 1 }), 1) }

/-- An extender whose filter rejects every candidate. -/
def rejectAllExtender : SchedulerExtender :=
  { filter := fun _ _ => .ok []
    prioritize := fun _ _ => .ok ([], 1) }

def schedulerC2 : GenericScheduler :=
  { predicates := [("rejectB", rejectBPred)], prioritizers := [],
    extenders := [scoringExtender], pods := .ok [] }

def schedulerC9 : GenericScheduler :=
  { predicates := [("alwaysFalse", alwaysFalsePred)], prioritizers := [],
    extenders := [], pods := .ok [] }

def schedulerC10 : GenericScheduler :=
  { predicates := [("alwaysTrue", alwaysTruePred)], prioritizers := [],
    extenders := [rejectAllExtender], pods := .ok [] }

/-- An extender whose operations always error. -/
def failingExtender : SchedulerExtender :=
  { filter := fun _ _ => .error (.extenderError "down")
    prioritize := fun _ _ => .error (.extenderError "down") }

def fitErrorC3 : FitError := { pod := podW, failedPredicates := [("b", ["rejectB"])] }

def rankingC7 : List HostPriority := [⟨"a", 3⟩, ⟨"b", 5⟩]

/-! ### Helper lemmas -/

theorem fpmLookup_fpmInsert_self (m : FailedPredicateMap) (k v : String) :
    fpmLookup (fpmInsert m k v) k =
      some (match fpmLookup m k with
            | none => [v]
            | some s => if v ∈ s then s else s ++ [v]) := by
  induction m with
  | nil => simp [fpmInsert, fpmLookup]
  | cons e rest ih =>
    obtain ⟨k', s⟩ := e
    by_cases h : k' = k
    · subst h; simp [fpmInsert, fpmLookup]
    · simp [fpmInsert, fpmLookup, h, ih]

theorem fpmLookup_fpmInsert_ne (m : FailedPredicateMap) (k' k v : String) (h : k' ≠ k) :
    fpmLookup (fpmInsert m k' v) k = fpmLookup m k := by
  induction m with
  | nil => simp [fpmInsert, fpmLookup, h]
  | cons e rest ih =>
    obtain ⟨k'', s⟩ := e
    by_cases h2 : k'' = k'
    · subst h2; simp [fpmInsert, fpmLookup, h]
    · simp only [fpmInsert, if_neg h2]
      by_cases h3 : k'' = k
      · simp [fpmLookup, h3]
      · simp [fpmLookup, h3, ih]

/-- With no extenders registered, `findNodesThatFit` is the predicate phase. -/
theorem findNodesThatFit_no_extenders (pod : Pod) (m2p : String → List Pod)
    (preds : List (String × FitPredicate)) (nodes : List Node) :
    findNodesThatFit pod m2p preds nodes [] = runPredicates pod m2p preds nodes [] [] := by
  unfold findNodesThatFit
  rcases h : runPredicates pod m2p preds nodes [] [] with ⟨f, m, err⟩
  cases err <;> simp

/-- Invariant run of the predicate loop under an everywhere-insufficient "cpu"
predicate: every processed node ends up mapped to exactly `["cpu"]`, and
existing `["cpu"]` entries persist. -/
theorem runPredicates_cpu_lookup (pod : Pod) (m2p : String → List Pod)
    (name : String) (p : FitPredicate)
    (hp : ∀ a b c, p a b c = (false, some (.insufficientResource "cpu"))) :
    ∀ (nodes acc : List Node) (fpm : FailedPredicateMap),
      (∀ k, fpmLookup fpm k = none ∨ fpmLookup fpm k = some ["cpu"]) →
      (∀ n ∈ nodes,
        fpmLookup (runPredicates pod m2p [(name, p)] nodes acc fpm).2.1 n.name = some ["cpu"]) ∧
      (∀ k, fpmLookup fpm k = some ["cpu"] →
        fpmLookup (runPredicates pod m2p [(name, p)] nodes acc fpm).2.1 k = some ["cpu"]) := by
  intro nodes
  induction nodes with
  | nil => intro acc fpm _; exact ⟨by simp, fun k hk => by simpa [runPredicates] using hk⟩
  | cons n rest ih =>
    intro acc fpm hinv
    have hcheck : checkNode pod (m2p n.name) n.name [(name, p)] = .ok (some "cpu") := by
      simp [checkNode, hp]
    have hstep : runPredicates pod m2p [(name, p)] (n :: rest) acc fpm =
        runPredicates pod m2p [(name, p)] rest acc (fpmInsert fpm n.name "cpu") := by
      simp [runPredicates, hcheck]
    have hself : fpmLookup (fpmInsert fpm n.name "cpu") n.name = some ["cpu"] := by
      rcases hinv n.name with h0 | h0 <;>
        simp [fpmLookup_fpmInsert_self, h0]
    have hinv' : ∀ k, fpmLookup (fpmInsert fpm n.name "cpu") k = none ∨
        fpmLookup (fpmInsert fpm n.name "cpu") k = some ["cpu"] := by
      intro k
      by_cases hk : n.name = k
      · subst hk; exact Or.inr hself
      · rw [fpmLookup_fpmInsert_ne _ _ _ _ hk]; exact hinv k
    obtain ⟨ih1, ih2⟩ := ih acc (fpmInsert fpm n.name "cpu") hinv'
    constructor
    · intro m hm
      rcases List.mem_cons.mp hm with hm | hm
      · subst hm; rw [hstep]; exact ih2 m.name hself
      · rw [hstep]; exact ih1 m hm
    · intro k hk
      rw [hstep]
      apply ih2
      by_cases hnk : n.name = k
      · subst hnk; exact hself
      · rw [fpmLookup_fpmInsert_ne _ _ _ _ hnk]; exact hk

/-- A candidate whose predicate check passes is never inserted into the failure
map by the predicate loop (the per-name check is deterministic, so no node of
that name can simultaneously be rejected). -/
theorem runPredicates_pass_not_recorded (pod : Pod) (m2p : String → List Pod)
    (preds : List (String × FitPredicate)) (k : String)
    (hk : checkNode pod (m2p k) k preds = .ok none) :
    ∀ (nodes acc : List Node) (fpm : FailedPredicateMap),
      fpmLookup fpm k = none →
      fpmLookup (runPredicates pod m2p preds nodes acc fpm).2.1 k = none := by
  intro nodes
  induction nodes with
  | nil => intro acc fpm h; simpa [runPredicates] using h
  | cons n rest ih =>
    intro acc fpm h
    cases hc : checkNode pod (m2p n.name) n.name preds with
    | error e => simp [runPredicates, hc, fpmLookup]
    | ok o =>
      cases o with
      | none =>
        simp only [runPredicates, hc]
        exact ih _ fpm h
      | some reason =>
        have hne : n.name ≠ k := by
          intro he
          rw [he, hk] at hc
          exact Option.noConfusion (Except.ok.inj hc)
        simp only [runPredicates, hc]
        apply ih
        rw [fpmLookup_fpmInsert_ne _ _ _ _ hne]
        exact h

/-! ### Claims -/

/-- Claim C1, counterexample: with one registered priority function of weight 0
and no extenders there are zero priority functions with nonzero weight, yet
`PrioritizeNodes` returns the empty ranking: the survivor `a` does not appear
with score 1 (the source tests `len(priorityConfigs) == 0`, not the number of
nonzero-weight functions). -/
theorem c1_counterexample :
    PrioritizeNodes false podW emptyPlacement (Except.ok []) [zeroWeightConfig]
      (Except.ok [nodeA]) [] = Except.ok [] ∧
    HostPriority.mk "a" 1 ∉ ([] : List HostPriority) :=
  ⟨rfl, by simp⟩

/-- Claim C1, amended: when zero priority functions are registered at all
(regardless of weight) and zero extenders, the Priority Stage assigns every
survivor the equal score 1, so every survivor appears in the returned ranking
with score 1. -/
theorem c1_equal_priority_default (sched : Bool) (pod : Pod)
    (machinesToPods : String → List Pod) (podLister : PodLister) (survivors : List Node) :
    PrioritizeNodes sched pod machinesToPods podLister [] (Except.ok survivors) [] =
      Except.ok (survivors.map (fun n => { host := n.name, score := 1 })) := rfl

/-- Claim C4, code evaluation at the failing input: one weight-1 priority
function that errors, survivors `[a]`, no extenders.  Under the schedule where
the spawned tasks only run at the `wg.Wait()` barrier (first conjunct, the
check at line 222 precedes the barrier at line 227 and sees no errors) the
stage returns a nil-error empty ranking; only under the schedule where every
task completed before the check (second conjunct) is the aggregated error
returned. -/
theorem c4_error_check_before_barrier :
    PrioritizeNodes false podW emptyPlacement (Except.ok []) [failingConfig]
      (Except.ok [nodeA]) [] = Except.ok [] ∧
    PrioritizeNodes true podW emptyPlacement (Except.ok []) [failingConfig]
      (Except.ok [nodeA]) [] = Except.error (.aggregate [.priorityError "boom"]) :=
  ⟨rfl, rfl⟩

/-- Claim C5: once a prefix of the predicate list has rejected a candidate (or
aborted the stage), appending any further predicates leaves the per-candidate
outcome unchanged — evaluation short-circuits at the first recorded failure, so
a later predicate's error can never surface for an already-rejected candidate. -/
theorem c5_short_circuit (pod : Pod) (pods : List Pod) (nodeName : String)
    (preds rest : List (String × FitPredicate))
    (h : checkNode pod pods nodeName preds ≠ .ok none) :
    checkNode pod pods nodeName (preds ++ rest) = checkNode pod pods nodeName preds := by
  induction preds with
  | nil => exact absurd rfl h
  | cons hd tl ih =>
    obtain ⟨name, p⟩ := hd
    rcases hp : p pod pods nodeName with ⟨fit, err⟩
    rcases err with _ | pf
    · cases fit
      · simp [checkNode, hp]
      · simp only [checkNode, List.cons_append, hp, if_pos]
        apply ih
        intro h0
        apply h
        simpa [checkNode, hp] using h0
    · rcases pf with r | e
      · cases fit <;> simp [checkNode, hp]
      · simp [checkNode, hp]

/-- Claim C5 witness: a first predicate that rejects, an appended predicate
that would error if invoked; the outcome is that of the first alone. -/
theorem c5_short_circuit_witness :
    checkNode podW [] "a" ([("alwaysFalse", alwaysFalsePred)] ++ [("late", erroringPred)]) =
      checkNode podW [] "a" [("alwaysFalse", alwaysFalsePred)] :=
  c5_short_circuit podW [] "a" [("alwaysFalse", alwaysFalsePred)] [("late", erroringPred)]
    (by simp [checkNode, alwaysFalsePred])

/-- Claim C6: a rejection caused by `InsufficientResourceError` records the
insufficient resource's name; a plain rejection records the predicate's name;
and a predicate signaling insufficiency of "cpu" on all candidates leaves every
candidate mapped to exactly `["cpu"]` in the failure map. -/
theorem c6_recorded_reasons :
    (∀ (pod : Pod) (pods : List Pod) (nodeName name : String) (p : FitPredicate)
        (rest : List (String × FitPredicate)) (r : String),
        p pod pods nodeName = (false, some (.insufficientResource r)) →
        checkNode pod pods nodeName ((name, p) :: rest) = .ok (some r)) ∧
    (∀ (pod : Pod) (pods : List Pod) (nodeName name : String) (p : FitPredicate)
        (rest : List (String × FitPredicate)),
        p pod pods nodeName = (false, none) →
        checkNode pod pods nodeName ((name, p) :: rest) = .ok (some name)) ∧
    (∀ (pod : Pod) (m2p : String → List Pod) (name : String) (p : FitPredicate),
        (∀ a b c, p a b c = (false, some (.insufficientResource "cpu"))) →
        ∀ (nodes : List Node), ∀ n ∈ nodes,
          fpmLookup (findNodesThatFit pod m2p [(name, p)] nodes []).2.1 n.name = some ["cpu"]) := by
  refine ⟨?_, ?_, ?_⟩
  · intro pod pods nodeName name p rest r hp
    simp [checkNode, hp]
  · intro pod pods nodeName name p rest hp
    simp [checkNode, hp]
  · intro pod m2p name p hp nodes n hn
    rw [findNodesThatFit_no_extenders]
    exact (runPredicates_cpu_lookup pod m2p name p hp nodes [] []
      (fun k => Or.inl rfl)).1 n hn

/-- Claim C6 witness: the three parts at concrete inputs — insufficiency of
"cpu" records "cpu"; a plain rejection records the predicate's name; with the
all-candidates "cpu" predicate, node `a` maps to exactly `["cpu"]`. -/
theorem c6_recorded_reasons_witness :
    checkNode podW [] "a" [("res", insufficientCpuPred)] = .ok (some "cpu") ∧
    checkNode podW [] "a" [("alwaysFalse", alwaysFalsePred)] = .ok (some "alwaysFalse") ∧
    fpmLookup (findNodesThatFit podW emptyPlacement
      [("res", insufficientCpuPred)] [nodeA] []).2.1 nodeA.name = some ["cpu"] :=
  ⟨c6_recorded_reasons.1 podW [] "a" "res" insufficientCpuPred [] "cpu" rfl,
   c6_recorded_reasons.2.1 podW [] "a" "alwaysFalse" alwaysFalsePred [] rfl,
   c6_recorded_reasons.2.2 podW emptyPlacement "res" insufficientCpuPred
     (fun _ _ _ => rfl) [nodeA] nodeA (by simp)⟩

/-- Claim C9: an empty candidate listing yields the distinguished
`noNodesAvailable` error; a nonempty listing whose Filter Stage ends with zero
survivors and no systemic error yields the `fitError` carrying the failure map;
and the two error values are distinct (in both cases the result is an error,
so no winner is returned). -/
theorem c9_no_nodes_vs_does_not_fit :
    (∀ (sched : Bool) (r : Nat) (g : GenericScheduler) (pod : Pod),
      Schedule sched r g pod (Except.ok []) = .error .noNodesAvailable) ∧
    (∀ (sched : Bool) (r : Nat) (g : GenericScheduler) (pod : Pod) (nodes : List Node)
        (m2p : String → List Pod) (fpm : FailedPredicateMap),
      nodes ≠ [] →
      MapPodsToMachines g.pods = .ok m2p →
      findNodesThatFit pod m2p g.predicates nodes g.extenders = ([], fpm, none) →
      Schedule sched r g pod (Except.ok nodes) = .error (.fitError pod.name fpm)) ∧
    (∀ (pn : String) (fpm : FailedPredicateMap),
      Err.noNodesAvailable ≠ Err.fitError pn fpm) := by
  refine ⟨?_, ?_, ?_⟩
  · intro sched r g pod
    simp [Schedule]
  · intro sched r g pod nodes m2p fpm hne hm hf
    have h0 : ¬ nodes.length = 0 := by simpa [List.length_eq_zero] using hne
    simp [Schedule, h0, hm, hf]
  · intro pn fpm h
    exact Err.noConfusion h

/-- Claim C9 witness: the concrete always-reject scheduler at the two inputs,
plus the distinctness instance. -/
theorem c9_no_nodes_vs_does_not_fit_witness :
    Schedule false 0 schedulerC9 podW (Except.ok []) = .error .noNodesAvailable ∧
    Schedule false 0 schedulerC9 podW (Except.ok [nodeA]) =
      .error (.fitError "w" [("a", ["alwaysFalse"])]) ∧
    Err.noNodesAvailable ≠ Err.fitError "w" [("a", ["alwaysFalse"])] :=
  ⟨c9_no_nodes_vs_does_not_fit.1 false 0 schedulerC9 podW,
   c9_no_nodes_vs_does_not_fit.2.1 false 0 schedulerC9 podW [nodeA] emptyPlacement
     [("a", ["alwaysFalse"])] (by simp) rfl rfl,
   c9_no_nodes_vs_does_not_fit.2.2 "w" [("a", ["alwaysFalse"])]⟩

/-- Claim C10: a non-erroring Filter Stage returns the failure map the
predicate phase alone built (extender filtering never touches it); a candidate
whose predicate check passes has no failure-map entry; and concretely, when all
candidates pass the predicates and an extender rejects them all, `Schedule`
returns a `fitError` with an entirely empty failure map. -/
theorem c10_extender_rejections_unrecorded :
    (∀ (pod : Pod) (m2p : String → List Pod) (preds : List (String × FitPredicate))
        (nodes : List Node) (exts : List SchedulerExtender)
        (f : List Node) (m : FailedPredicateMap),
      findNodesThatFit pod m2p preds nodes exts = (f, m, none) →
      m = (findNodesThatFit pod m2p preds nodes []).2.1) ∧
    (∀ (pod : Pod) (m2p : String → List Pod) (preds : List (String × FitPredicate))
        (nodes : List Node) (k : String),
      checkNode pod (m2p k) k preds = .ok none →
      fpmLookup (findNodesThatFit pod m2p preds nodes []).2.1 k = none) ∧
    Schedule false 0 schedulerC10 podW (Except.ok [nodeA]) = .error (.fitError "w" []) := by
  refine ⟨?_, ?_, rfl⟩
  · intro pod m2p preds nodes exts f m h
    rw [findNodesThatFit_no_extenders]
    unfold findNodesThatFit at h
    split at h
    next f0 m0 e heq => simp at h
    next f0 m0 heq =>
      rw [heq]
      split at h
      · split at h
        · simp at h
        · simp only [Prod.mk.injEq] at h
          exact h.2.1.symm
      · simp only [Prod.mk.injEq] at h
        exact h.2.1.symm
  · intro pod m2p preds nodes k hk
    rw [findNodesThatFit_no_extenders]
    exact runPredicates_pass_not_recorded pod m2p preds k hk nodes [] [] rfl

/-- Claim C10 witness: with the all-pass predicate, the extender-free failure
map is what the extender run returned, and the passing candidate `a` has no
entry in it. -/
theorem c10_extender_rejections_unrecorded_witness :
    ([] : FailedPredicateMap) =
      (findNodesThatFit podW emptyPlacement [("alwaysTrue", alwaysTruePred)] [nodeA] []).2.1 ∧
    fpmLookup (findNodesThatFit podW emptyPlacement
      [("alwaysTrue", alwaysTruePred)] [nodeA] []).2.1 "a" = none :=
  ⟨c10_extender_rejections_unrecorded.1 podW emptyPlacement
     [("alwaysTrue", alwaysTruePred)] [nodeA] [rejectAllExtender] [] [] rfl,
   c10_extender_rejections_unrecorded.2.1 podW emptyPlacement
     [("alwaysTrue", alwaysTruePred)] [nodeA] "a" rfl⟩

/-- Claim C8: extenders run in registration order, each receiving the previous
surviving set (the first receiving the predicate survivors); an extender that
returns an empty set stops the run with empty survivors regardless of the
remaining extenders; an extender filter error aborts the whole Filter Stage
with that error and empty outputs; and a non-erroring run becomes the stage's
survivors next to the untouched failure map. -/
theorem c8_extender_filter_pipeline :
    (∀ (pod : Pod) (e : SchedulerExtender) (rest : List SchedulerExtender)
        (s s' : List Node),
      e.filter pod s = .ok s' → s' ≠ [] →
      runExtenderFilters pod (e :: rest) s = runExtenderFilters pod rest s') ∧
    (∀ (pod : Pod) (e : SchedulerExtender) (rest : List SchedulerExtender) (s : List Node),
      e.filter pod s = .ok [] →
      runExtenderFilters pod (e :: rest) s = .ok []) ∧
    (∀ (pod : Pod) (m2p : String → List Pod) (preds : List (String × FitPredicate))
        (nodes : List Node) (exts : List SchedulerExtender) (s : List Node)
        (m : FailedPredicateMap) (err : Err),
      runPredicates pod m2p preds nodes [] [] = (s, m, none) →
      s ≠ [] → exts ≠ [] →
      runExtenderFilters pod exts s = .error err →
      findNodesThatFit pod m2p preds nodes exts = ([], [], some err)) ∧
    (∀ (pod : Pod) (m2p : String → List Pod) (preds : List (String × FitPredicate))
        (nodes : List Node) (exts : List SchedulerExtender) (s : List Node)
        (m : FailedPredicateMap) (l : List Node),
      runPredicates pod m2p preds nodes [] [] = (s, m, none) →
      s ≠ [] → exts ≠ [] →
      runExtenderFilters pod exts s = .ok l →
      findNodesThatFit pod m2p preds nodes exts = (l, m, none)) := by
  refine ⟨?_, ?_, ?_, ?_⟩
  · intro pod e rest s s' hf hs'
    simp [runExtenderFilters, hf, List.length_eq_zero, hs']
  · intro pod e rest s hf
    simp [runExtenderFilters, hf]
  · intro pod m2p preds nodes exts s m err hr hs hexts hext
    have h1 : s.length > 0 := List.length_pos.mpr hs
    have h2 : exts.length ≠ 0 := by simpa [List.length_eq_zero] using hexts
    simp [findNodesThatFit, hr, h1, h2, hext]
  · intro pod m2p preds nodes exts s m l hr hs hexts hext
    have h1 : s.length > 0 := List.length_pos.mpr hs
    have h2 : exts.length ≠ 0 := by simpa [List.length_eq_zero] using hexts
    simp [findNodesThatFit, hr, h1, h2, hext]

/-- Claim C8 witness: the four parts at concrete inputs — chaining past a
keep-all extender, early stop at a reject-all extender, the abort with empty
outputs on an erroring extender, and the non-erroring run's outputs. -/
theorem c8_extender_filter_pipeline_witness :
    runExtenderFilters podW [scoringExtender, rejectAllExtender] [nodeA] =
      runExtenderFilters podW [rejectAllExtender] [nodeA] ∧
    runExtenderFilters podW [rejectAllExtender, scoringExtender] [nodeA] = .ok [] ∧
    findNodesThatFit podW emptyPlacement [("alwaysTrue", alwaysTruePred)] [nodeA]
      [failingExtender] = ([], [], some (.extenderError "down")) ∧
    findNodesThatFit podW emptyPlacement [("alwaysTrue", alwaysTruePred)] [nodeA]
      [rejectAllExtender] = ([], [], none) :=
  ⟨c8_extender_filter_pipeline.1 podW scoringExtender [rejectAllExtender] [nodeA] [nodeA]
     rfl (by simp),
   c8_extender_filter_pipeline.2.1 podW rejectAllExtender [scoringExtender] [nodeA] rfl,
   c8_extender_filter_pipeline.2.2.1 podW emptyPlacement [("alwaysTrue", alwaysTruePred)]
     [nodeA] [failingExtender] [nodeA] [] (.extenderError "down") rfl (by simp)
     (List.cons_ne_nil _ _) rfl,
   c8_extender_filter_pipeline.2.2.2 podW emptyPlacement [("alwaysTrue", alwaysTruePred)]
     [nodeA] [rejectAllExtender] [nodeA] [] [] rfl (by simp)
     (List.cons_ne_nil _ _) rfl⟩

/-- Claim C2, counterexample: with candidates `[a, b]`, a predicate rejecting
`b`, and one extender, the list `Schedule`'s composition hands to the
extender's `Prioritize` is the survivor list `[a]`, not the full candidate
list `[a, b]`. -/
theorem c2_counterexample :
    scheduleExtenderPrioritizeInput false schedulerC2 podW (Except.ok [nodeA, nodeB]) =
      some [nodeA] ∧
    some [nodeA] ≠ some [nodeA, nodeB] :=
  ⟨rfl, by decide⟩

/-- Claim C2, amended: whenever the extender scoring wave runs inside
`Schedule`'s composition, the candidate list it passes to every extender's
`Prioritize` is exactly the Filter Stage's survivor list (re-fetched from the
node lister `Schedule` supplies, which wraps the filtered nodes) — not the full
candidate list. -/
theorem c2_extenders_receive_survivors (sched : Bool) (g : GenericScheduler)
    (pod : Pod) (nodes : List Node) (m2p : String → List Pod) (l : List Node)
    (hm : MapPodsToMachines g.pods = .ok m2p)
    (h : scheduleExtenderPrioritizeInput sched g pod (Except.ok nodes) = some l) :
    l = (findNodesThatFit pod m2p g.predicates nodes g.extenders).1 := by
  unfold scheduleExtenderPrioritizeInput at h
  rw [hm] at h
  dsimp only at h
  split at h
  · exact absurd h (by simp)
  · split at h
    next a b e heq => exact absurd h (by simp)
    next a b heq =>
      rw [heq]
      split at h
      · exact absurd h (by simp)
      · split at h
        · exact absurd h (by simp)
        · split at h
          · exact absurd h (by simp)
          · split at h
            · exact (Option.some.inj h).symm
            · exact absurd h (by simp)

/-- Claim C2 witness: in the concrete composition, the list handed to the
extender equals the Filter Stage's survivor list. -/
theorem c2_extenders_receive_survivors_witness :
    [nodeA] = (findNodesThatFit podW emptyPlacement schedulerC2.predicates
      [nodeA, nodeB] schedulerC2.extenders).1 :=
  c2_extenders_receive_survivors false schedulerC2 podW [nodeA, nodeB]
    emptyPlacement [nodeA] rfl rfl

theorem string_length_eq_zero {s : String} (h : s.length = 0) : s = "" := by
  cases s with
  | mk data =>
    cases data with
    | nil => rfl
    | cons c cs => simp [String.length] at h

theorem list_getD_mem {α : Type} (l : List α) (n : Nat) (d : α) (h : n < l.length) :
    l.getD n d ∈ l := by
  simp only [List.getD_eq_getElem?_getD, List.getElem?_eq_getElem h, Option.getD_some]
  exact List.getElem_mem h

theorem getBestHosts_length_pos (s : List HostPriority) (hne : s ≠ []) :
    0 < (getBestHosts s).length := by
  cases s with
  | nil => exact absurd rfl hne
  | cons h0 t =>
    simp [getBestHosts, List.takeWhile_cons_of_pos (show (h0.score == h0.score) = true by simp)]

/-- Any index into `getBestHosts` of a descending-sorted nonempty list lands on
the host of an entry of the list whose score is maximal. -/
theorem getBestHosts_mem_max (s : List HostPriority) (hsorted : List.Sorted hpGE s)
    (hne : s ≠ []) (n : Nat) (hn : n < (getBestHosts s).length) :
    ∃ e, e ∈ s ∧ (getBestHosts s).getD n "" = e.host ∧ ∀ q ∈ s, q.score ≤ e.score := by
  cases s with
  | nil => exact absurd rfl hne
  | cons h0 t =>
    have hmax0 : ∀ q ∈ h0 :: t, q.score ≤ h0.score := by
      intro q hq
      rcases List.mem_cons.mp hq with rfl | hq'
      · exact le_refl _
      · exact List.rel_of_sorted_cons hsorted q hq'
    have hmem := list_getD_mem (getBestHosts (h0 :: t)) n "" hn
    have hmem2 : (getBestHosts (h0 :: t)).getD n "" ∈
        ((h0 :: t).takeWhile (fun e => e.score == h0.score)).map (fun e => e.host) := by
      simpa [getBestHosts] using hmem
    obtain ⟨e, hetw, hehost⟩ := List.mem_map.mp hmem2
    refine ⟨e, List.takeWhile_subset _ hetw, hehost.symm, ?_⟩
    have hescore : e.score = h0.score := by
      have := List.mem_takeWhile_imp hetw
      simpa using this
    intro q hq
    rw [hescore]
    exact hmax0 q hq

/-- Claim C7: `selectHost` errors exactly on the empty ranking; on a nonempty
ranking it returns, for every random draw, the host of an entry whose score is
the maximal score occurring in the ranking (a member of the tied-best prefix of
the descending sort). -/
theorem c7_selector :
    (∀ r : Nat, selectHost r [] = .error .emptyPriorityList) ∧
    (∀ (l : List HostPriority) (r : Nat), l ≠ [] →
      ∃ hp, hp ∈ l ∧ selectHost r l = .ok hp.host ∧ ∀ q ∈ l, q.score ≤ hp.score) := by
  constructor
  · intro r; rfl
  · intro l r hl
    have hperm := List.perm_insertionSort hpGE l
    have hlen : ¬ l.length = 0 := by simpa [List.length_eq_zero] using hl
    have hsne : List.insertionSort hpGE l ≠ [] := by
      intro h0
      apply hl
      have hleq := hperm.length_eq
      rw [h0] at hleq
      simpa [List.length_eq_zero] using hleq.symm
    have hpos := getBestHosts_length_pos _ hsne
    have hix := Nat.mod_lt r hpos
    obtain ⟨e, hes, hchosen, hemax⟩ :=
      getBestHosts_mem_max _ (List.sorted_insertionSort hpGE l) hsne _ hix
    refine ⟨e, hperm.mem_iff.mp hes, ?_, ?_⟩
    · have hsel : selectHost r l = .ok ((getBestHosts (List.insertionSort hpGE l)).getD
          (r % (getBestHosts (List.insertionSort hpGE l)).length) "") := by
        simp [selectHost, hlen]
      rw [hsel, hchosen]
    · intro q hq
      exact hemax q (hperm.mem_iff.mpr hq)

/-- Claim C7 witness: on the ranking `[(a,3), (b,5)]` with draw 1, the winner
is an entry of the ranking carrying its maximal score. -/
theorem c7_selector_witness :
    ∃ hp, hp ∈ rankingC7 ∧ selectHost 1 rankingC7 = .ok hp.host ∧
      ∀ q ∈ rankingC7, q.score ≤ hp.score :=
  c7_selector.2 rankingC7 1 (by decide)

theorem fitErrorLoop_map_unchanged (m : FailedPredicateMap) :
    ∀ reason, (fitErrorLoop m reason).2 = m := by
  induction m with
  | nil => intro reason; rfl
  | cons e rest ih =>
    intro reason
    obtain ⟨node, reasons⟩ := e
    by_cases h : reason.length = 0 <;> simp [fitErrorLoop, h, popAny, ih]

theorem fitErrorLoop_reason_kept (m : FailedPredicateMap) :
    ∀ reason, reason.length ≠ 0 → (fitErrorLoop m reason).1 = reason := by
  induction m with
  | nil => intro reason _; rfl
  | cons e rest ih =>
    intro reason h
    obtain ⟨node, reasons⟩ := e
    simp [fitErrorLoop, h, ih reason h]

theorem fitErrorLoop_all_empty (m : FailedPredicateMap)
    (h : ∀ e ∈ m, e.2 = ([] : List String)) : (fitErrorLoop m "").1 = "" := by
  induction m with
  | nil => rfl
  | cons e rest ih =>
    obtain ⟨node, reasons⟩ := e
    have h0 : reasons = [] := h (node, reasons) (List.mem_cons_self _ _)
    subst h0
    have hz : ("" : String).length = 0 := rfl
    simp only [fitErrorLoop, hz, if_pos, popAny]
    exact ih (fun e he => h e (List.mem_cons_of_mem _ he))

/-- When some candidate's reason set is nonempty, the reason the loop settles
on is a member of some candidate's reason set. -/
theorem fitErrorLoop_reason_mem (m : FailedPredicateMap) :
    ∀ (reason : String), reason.length = 0 →
    (∃ e ∈ m, e.2 ≠ ([] : List String)) →
    ∃ p, p ∈ m ∧ (fitErrorLoop m reason).1 ∈ p.2 := by
  induction m with
  | nil =>
    intro reason _ hex
    obtain ⟨e, he, _⟩ := hex
    exact absurd he (List.not_mem_nil e)
  | cons hd rest ih =>
    intro reason hlen hex
    obtain ⟨node, reasons⟩ := hd
    cases hr : reasons with
    | nil =>
      subst hr
      have hex' : ∃ e ∈ rest, e.2 ≠ ([] : List String) := by
        obtain ⟨e, he, hne⟩ := hex
        rcases List.mem_cons.mp he with rfl | he'
        · exact absurd rfl hne
        · exact ⟨e, he', hne⟩
      obtain ⟨p, hp, hmem⟩ := ih "" rfl hex'
      refine ⟨p, List.mem_cons_of_mem _ hp, ?_⟩
      simpa [fitErrorLoop, popAny, hlen] using hmem
    | cons r rs =>
      subst hr
      by_cases hrz : r.length = 0
      · have hr0 : r = "" := string_length_eq_zero hrz
        by_cases hrest : ∃ e ∈ rest, e.2 ≠ ([] : List String)
        · obtain ⟨p, hp, hmem⟩ := ih r hrz hrest
          refine ⟨p, List.mem_cons_of_mem _ hp, ?_⟩
          simpa [fitErrorLoop, popAny, hlen] using hmem
        · push_neg at hrest
          have hall : (fitErrorLoop rest r).1 = "" := by
            rw [hr0]
            exact fitErrorLoop_all_empty rest hrest
          refine ⟨(node, r :: rs), List.mem_cons_self _ _, ?_⟩
          have hres : (fitErrorLoop ((node, r :: rs) :: rest) reason).1 = "" := by
            simp [fitErrorLoop, popAny, hlen, hall]
          rw [hres, ← hr0]
          exact List.mem_cons_self r rs
      · refine ⟨(node, r :: rs), List.mem_cons_self _ _, ?_⟩
        have hres : (fitErrorLoop ((node, r :: rs) :: rest) reason).1 = r := by
          simp [fitErrorLoop, popAny, hlen, fitErrorLoop_reason_kept rest r hrz]
        rw [hres]
        exact List.mem_cons_self r rs

/-- Claim C3: for a `FitError` whose failure map has a candidate with a
nonempty reason set, `Error` returns the summary "Failed for reason R and
possibly others" with R an element of some candidate's reason set, and the
structured failure map is unchanged by the call: every candidate keeps its full
reason set. -/
theorem c3_fitError_summary_and_frame (f : FitError)
    (h : ∃ e ∈ f.failedPredicates, e.2 ≠ ([] : List String)) :
    (∃ p, p ∈ f.failedPredicates ∧
      (FitErrorError f).1 =
        "Failed for reason " ++ (fitErrorLoop f.failedPredicates "").1 ++
          " and possibly others" ∧
      (fitErrorLoop f.failedPredicates "").1 ∈ p.2) ∧
    (FitErrorError f).2 = f.failedPredicates := by
  constructor
  · obtain ⟨p, hp, hmem⟩ := fitErrorLoop_reason_mem f.failedPredicates "" rfl h
    exact ⟨p, hp, rfl, hmem⟩
  · exact fitErrorLoop_map_unchanged f.failedPredicates ""

/-- Claim C3 witness: a failure map with one candidate and one reason — the
summary names that reason and the map survives the call unchanged. -/
theorem c3_fitError_summary_and_frame_witness :
    (∃ p, p ∈ fitErrorC3.failedPredicates ∧
      (FitErrorError fitErrorC3).1 =
        "Failed for reason " ++ (fitErrorLoop fitErrorC3.failedPredicates "").1 ++
          " and possibly others" ∧
      (fitErrorLoop fitErrorC3.failedPredicates "").1 ∈ p.2) ∧
    (FitErrorError fitErrorC3).2 = fitErrorC3.failedPredicates :=
  c3_fitError_summary_and_frame fitErrorC3
    ⟨("b", ["rejectB"]), by simp [fitErrorC3], by simp⟩

end Sched
